import Mathlib

/-!
Verification of the Bayesian parallax-to-distance module (abj2016.py,
method of Astraatmadja & Bailer-Jones 2016).

Shallow embedding conventions:
* floating-point numbers are modelled as real numbers (ℝ);
* numpy 1-D arrays are `List ℝ`; the N×M matrices produced by broadcasting
  (distance axis first, source axis second) are `List (List ℝ)` in row-major
  (distance-major) order;
* a Python `raise ValueError` is modelled by `Except String`;
* real division follows Lean's convention `x / 0 = 0`.  The one place where
  IEEE semantics differ in an observable way is the likelihood at a grid
  point `d = 0`: numpy evaluates `1./d = inf`, then
  `exp(-(pi - inf)^2 / (2*sigma^2)) = exp(-inf) = 0`, so the whole likelihood
  factor is exactly `0` for `sigma_pi > 0`.  The embedding encodes this IEEE
  limit by an explicit `d = 0` branch returning `0`.
* `np.piecewise` applied to a scalar is a plain case split on the (ordered,
  disjoint) condition list; the pointwise prior functions below are this
  scalar semantics.  Applied to an array, `np.piecewise` assigns each
  non-callable funclist entry through a boolean mask (`y[cond] = item`);
  `uniform_density_prior` and `exp_prior` pass eagerly evaluated FULL-LENGTH
  arrays as entries, and numpy raises ValueError when such an array is
  assigned through a mask that does not select every element (a length-N
  value broadcasts to a k-element selection only for k = N or N = 1).  The
  `..._arr` functions and `priorArr` model this array semantics, including
  that error path.
-/

noncomputable section

namespace Abj2016

/-! ### numpy helpers -/

/-- Model of `np.linspace a b n` (endpoint included): point `i` is
`a + i * (b - a) / (n - 1)`.  For `n = 1` the `0/0 = 0` convention gives
`[a]`, matching numpy. -/
def npLinspace (a b : ℝ) (n : ℕ) : List ℝ :=
  (List.range n).map fun (i : ℕ) => a + (i : ℝ) * (b - a) / ((n : ℝ) - 1)

/-- Model of `np.average x weights=w` along the only axis:
`(Σ x_i * w_i) / (Σ w_i)`. -/
def npAverage (x w : List ℝ) : ℝ :=
  (List.zipWith (· * ·) x w).sum / w.sum

/-- Model of `np.argmax`: index of the first occurrence of the maximal
element (numpy's tie-break rule). -/
def npArgmax : List ℝ → ℕ
  | [] => 0
  | [_] => 0
  | x :: y :: xs =>
    let j := npArgmax (y :: xs)
    if x < (y :: xs).getD j 0 then j + 1 else 0

/-- Column `j` of a distance-major matrix (entry `i` is row `i`, column `j`). -/
def col (m : List (List ℝ)) (j : ℕ) : List ℝ :=
  m.map fun row => row.getD j 0

/-- Sum of column `j` of a distance-major matrix: one entry of
`np.sum(m, axis=0)`. -/
def colSum (m : List (List ℝ)) (j : ℕ) : ℝ :=
  (col m j).sum

/-- Model of `np.sum(m, axis=0)` for an N×M distance-major matrix. -/
def colSums (m : List (List ℝ)) (M : ℕ) : List ℝ :=
  (List.range M).map (colSum m)

/-- Extract the payload of a successful computation, with a default for the
error case (used only to state theorems about successful runs). -/
def getOkD {α : Type} (e : Except String α) (dflt : α) : α :=
  match e with
  | Except.ok a => a
  | Except.error _ => dflt

/-! ### Prior library (abj2016.py lines 8-45) -/

/-- Source `uniform_distance_prior(d, rlim=30.)`, scalar (pointwise)
semantics of
`np.piecewise(d, [d < 0, (d >= 0)*(d <= rlim), d > rlim], [0, 1/rlim, 0])`;
its array evaluation is `uniform_distance_prior_arr` below. -/
def uniform_distance_prior (d rlim : ℝ) : ℝ :=
  if d < 0 then 0 else if d ≤ rlim then 1 / rlim else 0

/-- Source `uniform_density_prior(d, rlim=30.)`, scalar (pointwise)
semantics of
`np.piecewise(d, [d < 0, (d >= 0)*(d <= rlim), d > rlim],
[0, 1/(rlim**3.) * d**2., 0])`; its array evaluation (which can raise, see
the header note) is `uniform_density_prior_arr` below. -/
def uniform_density_prior (d rlim : ℝ) : ℝ :=
  if d < 0 then 0 else if d ≤ rlim then 1 / rlim ^ 3 * d ^ 2 else 0

/-- Source `exp_prior(d, L=1.)`, scalar (pointwise) semantics of
`np.piecewise(d, [d < 0, d >= 0], [0, 1/(2*L**3.) * d**2. * np.exp(-d/L)])`;
its array evaluation (which can raise, see the header note) is
`exp_prior_arr` below. -/
def exp_prior (d L : ℝ) : ℝ :=
  if d < 0 then 0 else 1 / (2 * L ^ 3) * d ^ 2 * Real.exp (-d / L)

/-! ### Array semantics of the priors (np.piecewise on arrays) -/

/-- Condition under which `np.piecewise`'s boolean-mask assignment of a
full-length array funclist entry succeeds: the mask of the array-valued
piece selects the whole input (every element in `support`), or the input
has length 1 (a size-1 value broadcasts to any selection, also an empty
one).  Otherwise numpy raises ValueError. -/
abbrev piecewiseMaskOk (support : ℝ → Prop) (darr : List ℝ) : Prop :=
  (∀ x ∈ darr, support x) ∨ darr.length = 1

/-- Message of numpy's boolean-mask assignment ValueError (the concrete N
and k of the real message are elided). -/
def npMaskErr : String :=
  "NumPy boolean array indexing assignment cannot assign input values to the output values where the mask is true"

/-- Array evaluation of `uniform_distance_prior`: all three funclist
entries are scalars, so the evaluation is pointwise and never raises. -/
def uniform_distance_prior_arr (darr : List ℝ) (rlim : ℝ) : List ℝ :=
  darr.map fun d => uniform_distance_prior d rlim

/-- Array evaluation of `uniform_density_prior`: the middle funclist entry
is the full-length array `1/(rlim**3.) * d**2.` assigned through the mask
`(d >= 0)*(d <= rlim)`; partial coverage raises ValueError, otherwise the
result is pointwise. -/
def uniform_density_prior_arr (darr : List ℝ) (rlim : ℝ) :
    Except String (List ℝ) :=
  if piecewiseMaskOk (fun d => 0 ≤ d ∧ d ≤ rlim) darr
  then Except.ok (darr.map fun d => uniform_density_prior d rlim)
  else Except.error npMaskErr

/-- Array evaluation of `exp_prior`: the second funclist entry is the
full-length array `1/(2*L**3.) * d**2. * np.exp(-d/L)` assigned through the
mask `d >= 0`; any negative element (at array length ≠ 1) raises
ValueError, otherwise the result is pointwise. -/
def exp_prior_arr (darr : List ℝ) (L : ℝ) : Except String (List ℝ) :=
  if piecewiseMaskOk (fun d => 0 ≤ d) darr
  then Except.ok (darr.map fun d => exp_prior d L)
  else Except.error npMaskErr

/-! ### Likelihood (abj2016.py lines 48-62) -/

/-- Scalar branch of `likelihood(pi, d, sigma_pi)`:
`1/np.sqrt(2*np.pi*sigma_pi**2.) * np.exp(-1/(2*sigma_pi**2.) * (pi - 1./d)**2.)`.
The `d = 0` branch encodes the IEEE evaluation `1/0 = inf`,
`exp(-inf) = 0` (see the header note). -/
def likelihood (pi d sigma_pi : ℝ) : ℝ :=
  if d = 0 then 0
  else 1 / Real.sqrt (2 * Real.pi * sigma_pi ^ 2) *
    Real.exp (-1 / (2 * sigma_pi ^ 2) * (pi - 1 / d) ^ 2)

/-- Variant of `likelihood` with a scalar `pi` broadcast over a distance array
(the `np.isscalar(pi)` branch applied to an array `d`). -/
def likelihood_arr (pi : ℝ) (distarray : List ℝ) (sigma_pi : ℝ) : List ℝ :=
  distarray.map fun d => likelihood pi d sigma_pi

/-- Array branch of `likelihood`:
`pi[np.newaxis, :] - 1./d[:, np.newaxis]` produces the N×M matrix whose
entry `[i, j]` applies the scalar formula to source `j` at grid distance
`i` (with `sigma_pi[j]`). -/
def likelihood_vec (pi : List ℝ) (distarray : List ℝ) (sigma_pi : List ℝ) :
    List (List ℝ) :=
  distarray.map fun d => (pi.zip sigma_pi).map fun ps => likelihood ps.1 d ps.2

/-! ### Posterior evaluator (abj2016.py lines 64-89) -/

/-- Keyword dispatch at the top of `posterior`: the three recognized
keywords bind `prior` to a density function at its default scale
(`rlim = 30`, `L = 1`); anything else raises
`ValueError("Prior keyword does not exist")`.  This models the selection
step only (the pointwise density the keyword stands for, used in theorem
statements); the evaluation of the selected prior on the distance array,
with its possible np.piecewise mask error, is `priorArr`. -/
def priorOf (prior : String) : Except String (ℝ → ℝ) :=
  if prior = "exponential" then Except.ok fun d => exp_prior d 1
  else if prior = "uniform_density" then Except.ok fun d => uniform_density_prior d 30
  else if prior = "uniform_distance" then Except.ok fun d => uniform_distance_prior d 30
  else Except.error "Prior keyword does not exist"

/-- Evaluation `prior(distarray)` as `posterior` performs it: the keyword
dispatch error fires first (before any numeric work); then the selected
prior is applied to the array, which for `uniform_density` and
`exponential` may itself raise np.piecewise's mask ValueError. -/
def priorArr (prior : String) (distarray : List ℝ) : Except String (List ℝ) :=
  if prior = "exponential" then exp_prior_arr distarray 1
  else if prior = "uniform_density" then uniform_density_prior_arr distarray 30
  else if prior = "uniform_distance" then
    Except.ok (uniform_distance_prior_arr distarray 30)
  else Except.error "Prior keyword does not exist"

/-- Grids on which the prior selected by `prior` evaluates without a mask
error: the support condition of the array-valued piece for `exponential`
and `uniform_density`, vacuous for `uniform_distance` (all-scalar funclist)
and for unrecognized keywords (which never reach the prior). -/
def gridSafe (prior : String) (darr : List ℝ) : Prop :=
  if prior = "exponential" then piecewiseMaskOk (fun d => 0 ≤ d) darr
  else if prior = "uniform_density" then
    piecewiseMaskOk (fun d => 0 ≤ d ∧ d ≤ 30) darr
  else True

/-- Scalar branch of `posterior(distarray, pi, sigma_pi, prior)`:
`prior(distarray) * likelihood(pi, distarray, sigma_pi)` (elementwise);
the prior evaluation may raise (keyword error or mask error). -/
def posterior_scalar (distarray : List ℝ) (pi sigma_pi : ℝ) (prior : String) :
    Except String (List ℝ) :=
  (priorArr prior distarray).map fun prvals =>
    List.zipWith (· * ·) prvals (likelihood_arr pi distarray sigma_pi)

/-- Array branch of `posterior`:
`prior(distarray)[:, np.newaxis] * likelihood(pi, distarray, sigma_pi)`
(the prior column is broadcast across the source axis); the prior
evaluation may raise (keyword error or mask error). -/
def posterior_vec (distarray : List ℝ) (pi sigma_pi : List ℝ) (prior : String) :
    Except String (List (List ℝ)) :=
  (priorArr prior distarray).map fun prvals =>
    List.zipWith (fun pv row => row.map (pv * ·)) prvals
      (likelihood_vec pi distarray sigma_pi)

/-! ### Distance-PDF builder and statistics (abj2016.py lines 92-163)

Python defaults: `min_dist=0., max_dist=30., resolution=10000`, and
`prior="exponential"` (default of `posterior`, reached through `**kwargs`). -/

/-- Scalar branch of `distpdf`: grid `np.linspace(min_dist, max_dist,
resolution)`, posterior, then normalization `distpdf / np.sum(distpdf, axis=0)`. -/
def distpdf_scalar (pi sigma_pi min_dist max_dist : ℝ) (resolution : ℕ)
    (prior : String) : Except String (List ℝ × List ℝ) :=
  let distarray := npLinspace min_dist max_dist resolution
  (posterior_scalar distarray pi sigma_pi prior).map fun post =>
    (distarray, post.map fun x => x / post.sum)

/-- Array branch of `distpdf`: per-source normalization by the column sums
`np.sum(distpdf, axis=0)`. -/
def distpdf_vec (pi sigma_pi : List ℝ) (min_dist max_dist : ℝ) (resolution : ℕ)
    (prior : String) : Except String (List ℝ × List (List ℝ)) :=
  let distarray := npLinspace min_dist max_dist resolution
  (posterior_vec distarray pi sigma_pi prior).map fun post =>
    let s := colSums post (pi.zip sigma_pi).length
    (distarray, post.map fun row => List.zipWith (· / ·) row s)

/-- Scalar branch of `meandist`: `np.average(dists, axis=0, weights=pdf)`. -/
def meandist_scalar (pi sigma_pi min_dist max_dist : ℝ) (resolution : ℕ)
    (prior : String) : Except String ℝ :=
  (distpdf_scalar pi sigma_pi min_dist max_dist resolution prior).map fun dp =>
    npAverage dp.1 dp.2

/-- Array branch of `meandist`:
`np.sum(pdf * dists[:, np.newaxis] / np.sum(pdf, axis=0), axis=0)`. -/
def meandist_vec (pi sigma_pi : List ℝ) (min_dist max_dist : ℝ) (resolution : ℕ)
    (prior : String) : Except String (List ℝ) :=
  (distpdf_vec pi sigma_pi min_dist max_dist resolution prior).map fun dp =>
    let s := colSums dp.2 (pi.zip sigma_pi).length
    colSums
      (List.zipWith (fun d row => List.zipWith (fun x t => x * d / t) row s)
        dp.1 dp.2)
      (pi.zip sigma_pi).length

/-- Scalar branch of `diststd`.  NOTE (faithful to the source): line 141
reads `dists, pdf = distpdf(pi, sigma_pi)` — the keyword arguments are NOT
forwarded, so the grid/pdf (and the inner `meandist(pi, sigma_pi)` call) use
the defaults whatever configuration the caller passed; the configuration
parameters below are bound but unused, exactly like the ignored `**kwargs`. -/
def diststd_scalar (pi sigma_pi : ℝ) (min_dist max_dist : ℝ) (resolution : ℕ)
    (prior : String) : Except String ℝ :=
  (distpdf_scalar pi sigma_pi 0 30 10000 "exponential").bind fun dp =>
    (meandist_scalar pi sigma_pi 0 30 10000 "exponential").map fun m =>
      Real.sqrt (npAverage (dp.1.map fun d => (d - m) ^ 2) dp.2)

/-- Array branch of `diststd` (same dropped `**kwargs` as the scalar branch):
`np.sqrt(np.sum(pdf * (dists[:, np.newaxis]
  - meandist(pi, sigma_pi)[np.newaxis, :] / np.sum(pdf, axis=0))**2., axis=0))`
— note the Python precedence: the mean column is divided by the column sums
before the subtraction. -/
def diststd_vec (pi sigma_pi : List ℝ) (min_dist max_dist : ℝ) (resolution : ℕ)
    (prior : String) : Except String (List ℝ) :=
  (distpdf_vec pi sigma_pi 0 30 10000 "exponential").bind fun dp =>
    (meandist_vec pi sigma_pi 0 30 10000 "exponential").map fun m =>
      let s := colSums dp.2 (pi.zip sigma_pi).length
      (colSums
        (List.zipWith
          (fun d row => List.zipWith (fun x mt => x * (d - mt.1 / mt.2) ^ 2)
            row (m.zip s))
          dp.1 dp.2)
        (pi.zip sigma_pi).length).map Real.sqrt

/-- Scalar branch of `modedist`: `dists[np.argmax(pdf)]`. -/
def modedist_scalar (pi sigma_pi min_dist max_dist : ℝ) (resolution : ℕ)
    (prior : String) : Except String ℝ :=
  (distpdf_scalar pi sigma_pi min_dist max_dist resolution prior).map fun dp =>
    dp.1.getD (npArgmax dp.2) 0

/-- Array branch of `modedist`: `dists[np.argmax(pdf, axis=0)]`. -/
def modedist_vec (pi sigma_pi : List ℝ) (min_dist max_dist : ℝ) (resolution : ℕ)
    (prior : String) : Except String (List ℝ) :=
  (distpdf_vec pi sigma_pi min_dist max_dist resolution prior).map fun dp =>
    (List.range (pi.zip sigma_pi).length).map fun j =>
      dp.1.getD (npArgmax (col dp.2 j)) 0

/-! ### Spec-side definitions (used only for refinement comparisons) -/

/-- Spec formula for the likelihood:
`(1/√(2π·sigma_pi²)) · exp(−(pi − 1/d)² / (2·sigma_pi²))`. -/
def likelihood_spec (pi d sigma_pi : ℝ) : ℝ :=
  1 / Real.sqrt (2 * Real.pi * sigma_pi ^ 2) *
    Real.exp (-(pi - 1 / d) ^ 2 / (2 * sigma_pi ^ 2))

/-- Spec piecewise density: `1/rlim` for `0 ≤ d ≤ rlim`, else `0`. -/
def uniform_distance_prior_spec (d rlim : ℝ) : ℝ :=
  if 0 ≤ d ∧ d ≤ rlim then 1 / rlim else 0

/-- Spec piecewise density: `d²/rlim³` for `0 ≤ d ≤ rlim`, else `0`. -/
def uniform_density_prior_spec (d rlim : ℝ) : ℝ :=
  if 0 ≤ d ∧ d ≤ rlim then d ^ 2 / rlim ^ 3 else 0

/-- Spec piecewise density: `d²·exp(−d/L)/(2L³)` for `d ≥ 0`, else `0`. -/
def exp_prior_spec (d L : ℝ) : ℝ :=
  if 0 ≤ d then d ^ 2 * Real.exp (-d / L) / (2 * L ^ 3) else 0

/-! ### Derived abbreviations for stating theorems -/

/-- Unnormalized posterior of one source `ps = (pi, sigma_pi)` at distance
`d`, for the prior function `pr` selected by the keyword. -/
def srcpost (pr : ℝ → ℝ) (ps : ℝ × ℝ) (d : ℝ) : ℝ :=
  pr d * likelihood ps.1 d ps.2

/-- Sum of the unnormalized posterior of one source over a distance grid
(the per-source normalization constant of `distpdf`). -/
def srcsum (pr : ℝ → ℝ) (G : List ℝ) (ps : ℝ × ℝ) : ℝ :=
  (G.map (srcpost pr ps)).sum

/-- One entry of the normalized pdf of a source. -/
def pdfval (pr : ℝ → ℝ) (G : List ℝ) (ps : ℝ × ℝ) (d : ℝ) : ℝ :=
  srcpost pr ps d / srcsum pr G ps

/-- Sum of the normalized pdf of a source over the grid. -/
def pdfsum (pr : ℝ → ℝ) (G : List ℝ) (ps : ℝ × ℝ) : ℝ :=
  (G.map (pdfval pr G ps)).sum

/-! ### List helper lemmas -/

lemma sum_map_div {α : Type} (l : List α) (f : α → ℝ) (c : ℝ) :
    (l.map fun x => f x / c).sum = (l.map f).sum / c := by
  induction l with
  | nil => simp
  | cons a t ih => simp [ih, add_div]

lemma zipWith_map_right_same {α β γ : Type} (l : List α) (g : α → β)
    (k : α → β → γ) :
    List.zipWith k l (l.map g) = l.map fun a => k a (g a) := by
  induction l with
  | nil => rfl
  | cons a t ih => simp [ih]

lemma zipWith_map_same {α β γ δ : Type} (l : List α) (g₁ : α → β) (g₂ : α → γ)
    (k : β → γ → δ) :
    List.zipWith k (l.map g₁) (l.map g₂) = l.map fun a => k (g₁ a) (g₂ a) := by
  induction l with
  | nil => rfl
  | cons a t ih => simp [ih]

lemma getD_map_eq_getElem {α β : Type} (f : α → β) (d0 : β) :
    ∀ (l : List α) (j : ℕ), (h : j < l.length) → (l.map f).getD j d0 = f l[j] := by
  intro l
  induction l with
  | nil => intro j h; simp at h
  | cons a t ih =>
    intro j h
    cases j with
    | zero => rfl
    | succ n => exact ih n (Nat.lt_of_succ_lt_succ (by simpa using h))

lemma getD_eq_getElem' {α : Type} (d0 : α) :
    ∀ (l : List α) (j : ℕ), (h : j < l.length) → l.getD j d0 = l[j] := by
  intro l
  induction l with
  | nil => intro j h; simp at h
  | cons a t ih =>
    intro j h
    cases j with
    | zero => rfl
    | succ n => exact ih n (Nat.lt_of_succ_lt_succ (by simpa using h))

lemma getD_of_length_le {α : Type} (d0 : α) :
    ∀ (l : List α) (j : ℕ), l.length ≤ j → l.getD j d0 = d0 := by
  intro l
  induction l with
  | nil => intro j _; cases j <;> rfl
  | cons a t ih =>
    intro j h
    cases j with
    | zero => simp at h
    | succ n => exact ih n (by simpa using h)

lemma zip_getD (pv sv : List ℝ) :
    ∀ (j : ℕ), j < (pv.zip sv).length →
      (pv.zip sv).getD j (0, 0) = (pv.getD j 0, sv.getD j 0) := by
  induction pv generalizing sv with
  | nil => intro j h; simp at h
  | cons a t ih =>
    intro j h
    cases sv with
    | nil => simp at h
    | cons b u =>
      cases j with
      | zero => rfl
      | succ n => exact ih u n (by simpa using h)

lemma colSums_of_rect {α : Type} (G : List ℝ) (zs : List α) (g : ℝ → α → ℝ) :
    colSums (G.map fun d => zs.map (g d)) zs.length
      = zs.map fun z => (G.map fun d => g d z).sum := by
  apply List.ext_getElem
  · simp [colSums]
  · intro j h1 h2
    have hj : j < zs.length := by simpa using h2
    simp only [colSums, colSum, col, List.getElem_map, List.getElem_range,
      List.map_map]
    congr 1
    apply List.map_congr_left
    intro d _
    simp only [Function.comp]
    exact getD_map_eq_getElem (g d) 0 zs j hj

lemma col_of_rect {α : Type} (G : List ℝ) (zs : List α) (g : ℝ → α → ℝ)
    (j : ℕ) (hj : j < zs.length) :
    col (G.map fun d => zs.map (g d)) j = G.map fun d => g d zs[j] := by
  simp only [col, List.map_map]
  apply List.map_congr_left
  intro d _
  simp only [Function.comp]
  exact getD_map_eq_getElem (g d) 0 zs j hj

/-! ### Sign facts about the embedded densities -/

lemma likelihood_nonneg (pi d sigma_pi : ℝ) : 0 ≤ likelihood pi d sigma_pi := by
  unfold likelihood
  split_ifs with h
  · exact le_refl 0
  · exact mul_nonneg (by positivity) (Real.exp_pos _).le

lemma likelihood_pos (pi d sigma_pi : ℝ) (hd : d ≠ 0) (hs : sigma_pi ≠ 0) :
    0 < likelihood pi d sigma_pi := by
  unfold likelihood
  rw [if_neg hd]
  have hsq : (0 : ℝ) < sigma_pi ^ 2 :=
    lt_of_le_of_ne (sq_nonneg sigma_pi) (Ne.symm (pow_ne_zero 2 hs))
  have harg : (0 : ℝ) < 2 * Real.pi * sigma_pi ^ 2 := by
    have := Real.pi_pos
    nlinarith
  exact mul_pos (by positivity) (Real.exp_pos _)

lemma exp_prior_pos (d L : ℝ) (hd : 0 < d) (hL : 0 < L) : 0 < exp_prior d L := by
  unfold exp_prior
  rw [if_neg (not_lt.mpr hd.le)]
  positivity

lemma priorOf_nonneg (kw : String) (pr : ℝ → ℝ)
    (hpr : priorOf kw = Except.ok pr) (d : ℝ) : 0 ≤ pr d := by
  unfold priorOf at hpr
  split_ifs at hpr <;> simp only [Except.ok.injEq] at hpr <;>
    try (exact absurd hpr (by simp))
  all_goals subst hpr
  · dsimp only; unfold exp_prior; split_ifs
    · exact le_refl 0
    · positivity
  · dsimp only; unfold uniform_density_prior; split_ifs
    · exact le_refl 0
    · positivity
    · exact le_refl 0
  · dsimp only; unfold uniform_distance_prior; split_ifs
    · exact le_refl 0
    · norm_num
    · exact le_refl 0

lemma srcpost_nonneg (kw : String) (pr : ℝ → ℝ)
    (hpr : priorOf kw = Except.ok pr) (ps : ℝ × ℝ) (d : ℝ) :
    0 ≤ srcpost pr ps d :=
  mul_nonneg (priorOf_nonneg kw pr hpr d) (likelihood_nonneg ps.1 d ps.2)

lemma srcsum_nonneg (kw : String) (pr : ℝ → ℝ)
    (hpr : priorOf kw = Except.ok pr) (G : List ℝ) (ps : ℝ × ℝ) :
    0 ≤ srcsum pr G ps := by
  apply List.sum_nonneg
  intro x hx
  rcases List.mem_map.mp hx with ⟨d, _, rfl⟩
  exact srcpost_nonneg kw pr hpr ps d

lemma pdfval_nonneg (kw : String) (pr : ℝ → ℝ)
    (hpr : priorOf kw = Except.ok pr) (G : List ℝ) (ps : ℝ × ℝ) (d : ℝ) :
    0 ≤ pdfval pr G ps d :=
  div_nonneg (srcpost_nonneg kw pr hpr ps d) (srcsum_nonneg kw pr hpr G ps)

lemma pdfsum_cases (pr : ℝ → ℝ) (G : List ℝ) (ps : ℝ × ℝ) :
    pdfsum pr G ps = if srcsum pr G ps = 0 then 0 else 1 := by
  unfold pdfsum pdfval
  rw [sum_map_div G (srcpost pr ps) (srcsum pr G ps)]
  show srcsum pr G ps / srcsum pr G ps = _
  split_ifs with h
  · rw [h, div_zero]
  · exact div_self h

lemma pdfsum_eq_one (pr : ℝ → ℝ) (G : List ℝ) (ps : ℝ × ℝ)
    (h : srcsum pr G ps ≠ 0) : pdfsum pr G ps = 1 := by
  rw [pdfsum_cases, if_neg h]

/-! ### Closed forms for the pipeline (recognized prior keyword) -/

lemma posterior_scalar_eq (distarray : List ℝ) (pi sigma_pi : ℝ) (prior : String)
    (pr : ℝ → ℝ) (hap : priorArr prior distarray = Except.ok (distarray.map pr)) :
    posterior_scalar distarray pi sigma_pi prior
      = Except.ok (distarray.map (srcpost pr (pi, sigma_pi))) := by
  unfold posterior_scalar likelihood_arr
  rw [hap]
  simp only [Except.map]
  rw [zipWith_map_same]
  rfl

lemma posterior_vec_eq (distarray : List ℝ) (pv sv : List ℝ) (prior : String)
    (pr : ℝ → ℝ) (hap : priorArr prior distarray = Except.ok (distarray.map pr)) :
    posterior_vec distarray pv sv prior
      = Except.ok (distarray.map fun d => (pv.zip sv).map fun ps => srcpost pr ps d) := by
  unfold posterior_vec likelihood_vec
  rw [hap]
  simp only [Except.map]
  rw [zipWith_map_same]
  simp only [List.map_map]
  rfl

lemma distpdf_scalar_eq (pi sigma_pi min_dist max_dist : ℝ) (resolution : ℕ)
    (prior : String) (pr : ℝ → ℝ)
    (hap : priorArr prior (npLinspace min_dist max_dist resolution)
      = Except.ok ((npLinspace min_dist max_dist resolution).map pr)) :
    distpdf_scalar pi sigma_pi min_dist max_dist resolution prior
      = Except.ok (npLinspace min_dist max_dist resolution,
          (npLinspace min_dist max_dist resolution).map
            (pdfval pr (npLinspace min_dist max_dist resolution) (pi, sigma_pi))) := by
  unfold distpdf_scalar
  dsimp only
  rw [posterior_scalar_eq _ _ _ _ _ hap]
  simp only [Except.map, List.map_map]
  rfl

lemma distpdf_vec_eq (pv sv : List ℝ) (min_dist max_dist : ℝ) (resolution : ℕ)
    (prior : String) (pr : ℝ → ℝ)
    (hap : priorArr prior (npLinspace min_dist max_dist resolution)
      = Except.ok ((npLinspace min_dist max_dist resolution).map pr)) :
    distpdf_vec pv sv min_dist max_dist resolution prior
      = Except.ok (npLinspace min_dist max_dist resolution,
          (npLinspace min_dist max_dist resolution).map fun d =>
            (pv.zip sv).map fun ps =>
              pdfval pr (npLinspace min_dist max_dist resolution) ps d) := by
  unfold distpdf_vec
  dsimp only
  rw [posterior_vec_eq _ _ _ _ _ hap]
  simp only [Except.map]
  rw [colSums_of_rect (npLinspace min_dist max_dist resolution) (pv.zip sv)
    (fun d ps => srcpost pr ps d)]
  simp only [List.map_map]
  congr 1
  congr 1
  apply List.map_congr_left
  intro d _
  simp only [Function.comp]
  rw [zipWith_map_same]
  rfl

lemma meandist_vec_eq (pv sv : List ℝ) (min_dist max_dist : ℝ) (resolution : ℕ)
    (prior : String) (pr : ℝ → ℝ)
    (hap : priorArr prior (npLinspace min_dist max_dist resolution)
      = Except.ok ((npLinspace min_dist max_dist resolution).map pr)) :
    meandist_vec pv sv min_dist max_dist resolution prior
      = Except.ok ((pv.zip sv).map fun ps =>
          ((npLinspace min_dist max_dist resolution).map fun d =>
            pdfval pr (npLinspace min_dist max_dist resolution) ps d * d /
              pdfsum pr (npLinspace min_dist max_dist resolution) ps).sum) := by
  unfold meandist_vec
  dsimp only
  rw [distpdf_vec_eq _ _ _ _ _ _ _ hap]
  simp only [Except.map]
  rw [colSums_of_rect (npLinspace min_dist max_dist resolution) (pv.zip sv)
    (fun d ps => pdfval pr (npLinspace min_dist max_dist resolution) ps d)]
  rw [zipWith_map_right_same]
  have hrw : ((npLinspace min_dist max_dist resolution).map fun d =>
      List.zipWith (fun x t => x * d / t)
        ((pv.zip sv).map fun ps =>
          pdfval pr (npLinspace min_dist max_dist resolution) ps d)
        ((pv.zip sv).map fun ps =>
          ((npLinspace min_dist max_dist resolution).map fun e =>
            pdfval pr (npLinspace min_dist max_dist resolution) ps e).sum))
      = (npLinspace min_dist max_dist resolution).map fun d =>
          (pv.zip sv).map fun ps =>
            pdfval pr (npLinspace min_dist max_dist resolution) ps d * d /
              pdfsum pr (npLinspace min_dist max_dist resolution) ps := by
    apply List.map_congr_left
    intro d _
    rw [zipWith_map_same]
    rfl
  rw [hrw]
  rw [colSums_of_rect (npLinspace min_dist max_dist resolution) (pv.zip sv)
    (fun d ps => pdfval pr (npLinspace min_dist max_dist resolution) ps d * d /
      pdfsum pr (npLinspace min_dist max_dist resolution) ps)]

/-! ### Prior/spec agreement lemmas -/

lemma uniform_distance_prior_eq_spec (d rlim : ℝ) :
    uniform_distance_prior d rlim = uniform_distance_prior_spec d rlim := by
  unfold uniform_distance_prior uniform_distance_prior_spec
  rcases lt_or_le d 0 with hd | hd
  · rw [if_pos hd, if_neg (fun hc => absurd hc.1 (not_le.mpr hd))]
  · rw [if_neg (not_lt.mpr hd)]
    rcases le_or_lt d rlim with hr | hr
    · rw [if_pos hr, if_pos ⟨hd, hr⟩]
    · rw [if_neg (not_le.mpr hr), if_neg (fun hc => absurd hc.2 (not_le.mpr hr))]

lemma uniform_density_prior_eq_spec (d rlim : ℝ) :
    uniform_density_prior d rlim = uniform_density_prior_spec d rlim := by
  unfold uniform_density_prior uniform_density_prior_spec
  rcases lt_or_le d 0 with hd | hd
  · rw [if_pos hd, if_neg (fun hc => absurd hc.1 (not_le.mpr hd))]
  · rw [if_neg (not_lt.mpr hd)]
    rcases le_or_lt d rlim with hr | hr
    · rw [if_pos hr, if_pos ⟨hd, hr⟩]; ring
    · rw [if_neg (not_le.mpr hr), if_neg (fun hc => absurd hc.2 (not_le.mpr hr))]

lemma exp_prior_eq_spec (d L : ℝ) : exp_prior d L = exp_prior_spec d L := by
  unfold exp_prior exp_prior_spec
  rcases lt_or_le d 0 with hd | hd
  · rw [if_pos hd, if_neg (not_le.mpr hd)]
  · rw [if_neg (not_lt.mpr hd), if_pos hd]; ring

/-- Claim C3: each of the three prior functions equals its stated piecewise
density (uniform-distance: 1/rlim on 0 ≤ d ≤ rlim else 0; uniform-density:
d²/rlim³ on 0 ≤ d ≤ rlim else 0; exponential: d²·exp(−d/L)/(2L³) on d ≥ 0
else 0), for every real d and scale parameter, and in particular all three
return 0 for every d < 0. -/
theorem claim_C3 (d rlim L : ℝ) :
    uniform_distance_prior d rlim = uniform_distance_prior_spec d rlim ∧
    uniform_density_prior d rlim = uniform_density_prior_spec d rlim ∧
    exp_prior d L = exp_prior_spec d L ∧
    (d < 0 → uniform_distance_prior d rlim = 0 ∧
      uniform_density_prior d rlim = 0 ∧ exp_prior d L = 0) := by
  refine ⟨uniform_distance_prior_eq_spec d rlim, uniform_density_prior_eq_spec d rlim,
    exp_prior_eq_spec d L, fun hd => ⟨?_, ?_, ?_⟩⟩
  · unfold uniform_distance_prior; rw [if_pos hd]
  · unfold uniform_density_prior; rw [if_pos hd]
  · unfold exp_prior; rw [if_pos hd]

/-- Witness for C3 at d = -1, rlim = 30, L = 1: all three priors vanish at a
negative distance. -/
theorem claim_C3_witness :
    uniform_distance_prior (-1) 30 = 0 ∧ uniform_density_prior (-1) 30 = 0 ∧
    exp_prior (-1) 1 = 0 :=
  (claim_C3 (-1) 30 1).2.2.2 (by norm_num)

/-- Claim C2: for d > 0 and sigma_pi > 0 the scalar likelihood equals the
spec formula (1/√(2π·sigma_pi²))·exp(−(pi − 1/d)²/(2·sigma_pi²)); and for
sequence inputs the result is an N×M matrix (distance axis first) whose
entry [i, j] is the scalar likelihood of source j at grid distance i. -/
theorem claim_C2 (pi d sigma_pi : ℝ) (hd : 0 < d) (hs : 0 < sigma_pi)
    (pv sv darr : List ℝ) (hlen : pv.length = sv.length) (i j : ℕ)
    (hi : i < darr.length) (hj : j < pv.length) :
    likelihood pi d sigma_pi = likelihood_spec pi d sigma_pi ∧
    (likelihood_vec pv darr sv).length = darr.length ∧
    ((likelihood_vec pv darr sv).getD i []).length = pv.length ∧
    ((likelihood_vec pv darr sv).getD i []).getD j 0
      = likelihood (pv.getD j 0) (darr.getD i 0) (sv.getD j 0) := by
  have hzj : j < (pv.zip sv).length := by
    rw [List.length_zip, ← hlen, min_self]; exact hj
  refine ⟨?_, ?_, ?_, ?_⟩
  · unfold likelihood likelihood_spec
    rw [if_neg hd.ne']
    have harg : -1 / (2 * sigma_pi ^ 2) * (pi - 1 / d) ^ 2
        = -(pi - 1 / d) ^ 2 / (2 * sigma_pi ^ 2) := by ring
    rw [harg]
  · simp [likelihood_vec]
  · unfold likelihood_vec
    rw [getD_map_eq_getElem _ _ darr i hi]
    simp [List.length_zip, ← hlen, min_self]
  · unfold likelihood_vec
    rw [getD_map_eq_getElem _ _ darr i hi,
      getD_map_eq_getElem _ _ (pv.zip sv) j hzj,
      getD_eq_getElem' _ darr i hi, getD_eq_getElem' _ pv j hj,
      getD_eq_getElem' _ sv j (hlen ▸ hj)]
    rw [List.getElem_zip]

/-- Witness for C2 at pi = 1, d = 2, sigma_pi = 1, pv = sv = [1],
darr = [2], i = j = 0. -/
theorem claim_C2_witness :
    likelihood 1 2 1 = likelihood_spec 1 2 1 ∧
    (likelihood_vec [1] [2] [1]).length = ([2] : List ℝ).length ∧
    ((likelihood_vec [1] [2] [1]).getD 0 []).length = ([1] : List ℝ).length ∧
    ((likelihood_vec [1] [2] [1]).getD 0 []).getD 0 0
      = likelihood (([1] : List ℝ).getD 0 0) (([2] : List ℝ).getD 0 0)
          (([1] : List ℝ).getD 0 0) :=
  claim_C2 1 2 1 (by norm_num) (by norm_num) [1] [1] [2] rfl 0 0
    (by norm_num) (by norm_num)

/-- Claim C8: for every prior keyword other than the three recognized ones,
posterior (both shape branches) and distpdf raise the invalid-configuration
error ValueError("Prior keyword does not exist"), uniformly in all numeric
inputs — i.e. before any prior or likelihood evaluation — and return no
numeric output. -/
theorem claim_C8 (prior : String) (h1 : prior ≠ "exponential")
    (h2 : prior ≠ "uniform_density") (h3 : prior ≠ "uniform_distance")
    (distarray pv sv : List ℝ) (pi sigma_pi min_dist max_dist : ℝ)
    (resolution : ℕ) :
    priorOf prior = Except.error "Prior keyword does not exist" ∧
    posterior_scalar distarray pi sigma_pi prior
      = Except.error "Prior keyword does not exist" ∧
    posterior_vec distarray pv sv prior
      = Except.error "Prior keyword does not exist" ∧
    distpdf_scalar pi sigma_pi min_dist max_dist resolution prior
      = Except.error "Prior keyword does not exist" ∧
    distpdf_vec pv sv min_dist max_dist resolution prior
      = Except.error "Prior keyword does not exist" := by
  have hp : priorOf prior = Except.error "Prior keyword does not exist" := by
    unfold priorOf
    rw [if_neg h1, if_neg h2, if_neg h3]
  have hpa : ∀ darr2 : List ℝ,
      priorArr prior darr2 = Except.error "Prior keyword does not exist" := by
    intro darr2
    unfold priorArr
    rw [if_neg h1, if_neg h2, if_neg h3]
  refine ⟨hp, ?_, ?_, ?_, ?_⟩
  · unfold posterior_scalar; rw [hpa]; rfl
  · unfold posterior_vec; rw [hpa]; rfl
  · unfold distpdf_scalar posterior_scalar; dsimp only; rw [hpa]; rfl
  · unfold distpdf_vec posterior_vec; dsimp only; rw [hpa]; rfl

/-- Witness for C8 at the spec's concrete scenario prior = "bogus". -/
theorem claim_C8_witness :
    priorOf "bogus" = Except.error "Prior keyword does not exist" ∧
    posterior_scalar [1, 2] 1 1 "bogus"
      = Except.error "Prior keyword does not exist" ∧
    posterior_vec [1, 2] [1] [1] "bogus"
      = Except.error "Prior keyword does not exist" ∧
    distpdf_scalar 1 1 0 30 10000 "bogus"
      = Except.error "Prior keyword does not exist" ∧
    distpdf_vec [1] [1] 0 30 10000 "bogus"
      = Except.error "Prior keyword does not exist" :=
  claim_C8 "bogus" (by decide) (by decide) (by decide) [1, 2] [1] [1] 1 1 0 30 10000

/-- Claim C5 (code bug): diststd discards the caller's configuration.  Both
shape branches of the embedded diststd are literally independent of
{min_dist, max_dist, resolution, prior} — the Python source calls
`distpdf(pi, sigma_pi)` and `meandist(pi, sigma_pi)` without forwarding
`**kwargs`, so the standard deviation always comes from the default grid
(0, 30, 10000, exponential), not from the grid/posterior of the caller's
configuration that meandist uses for an identical call. -/
theorem claim_C5 (pi sigma_pi min_dist max_dist : ℝ) (resolution : ℕ)
    (prior : String) (pv sv : List ℝ) :
    diststd_scalar pi sigma_pi min_dist max_dist resolution prior
      = diststd_scalar pi sigma_pi 0 30 10000 "exponential" ∧
    diststd_vec pv sv min_dist max_dist resolution prior
      = diststd_vec pv sv 0 30 10000 "exponential" :=
  ⟨rfl, rfl⟩

/-! ### Further helper lemmas: concrete grids, closed forms, success facts -/

lemma npLinspace_length (a b : ℝ) (n : ℕ) : (npLinspace a b n).length = n := by
  simp [npLinspace]

lemma npLinspace_two (a b : ℝ) : npLinspace a b 2 = [a, b] := by
  unfold npLinspace
  have h2 : List.range 2 = [0, 1] := rfl
  rw [h2]
  simp only [List.map_cons, List.map_nil]
  norm_num

lemma priorOf_exponential : priorOf "exponential" = Except.ok fun d => exp_prior d 1 :=
  rfl

lemma priorOf_uniform_distance :
    priorOf "uniform_distance" = Except.ok fun d => uniform_distance_prior d 30 :=
  rfl

lemma priorArr_uniform_distance (darr : List ℝ) :
    priorArr "uniform_distance" darr
      = Except.ok (darr.map fun d => uniform_distance_prior d 30) := by
  unfold priorArr
  rw [if_neg (by decide), if_neg (by decide), if_pos rfl]
  rfl

/-- If the keyword selects the pointwise density `pr` and the grid is safe
for that keyword, evaluating the prior on the grid succeeds with the
pointwise values (this also covers the length-1 case: a size-1 numpy value
broadcasts to any selection, and the untouched positions keep the scalar
assignments of the other pieces, which are the pointwise values there). -/
lemma priorArr_eq_map (prior : String) (pr : ℝ → ℝ)
    (hpr : priorOf prior = Except.ok pr) (darr : List ℝ)
    (hsafe : gridSafe prior darr) :
    priorArr prior darr = Except.ok (darr.map pr) := by
  by_cases h1 : prior = "exponential"
  · subst h1
    rw [priorOf_exponential] at hpr
    have hpr2 := Except.ok.inj hpr
    subst hpr2
    unfold gridSafe at hsafe
    rw [if_pos rfl] at hsafe
    unfold priorArr exp_prior_arr
    rw [if_pos rfl, if_pos hsafe]
  · by_cases h2 : prior = "uniform_density"
    · subst h2
      unfold priorOf at hpr
      rw [if_neg (by decide), if_pos rfl] at hpr
      have hpr2 := Except.ok.inj hpr
      subst hpr2
      unfold gridSafe at hsafe
      rw [if_neg (by decide), if_pos rfl] at hsafe
      unfold priorArr uniform_density_prior_arr
      rw [if_neg (by decide), if_pos rfl, if_pos hsafe]
    · by_cases h3 : prior = "uniform_distance"
      · subst h3
        rw [priorOf_uniform_distance] at hpr
        have hpr2 := Except.ok.inj hpr
        subst hpr2
        exact priorArr_uniform_distance darr
      · unfold priorOf at hpr
        rw [if_neg h1, if_neg h2, if_neg h3] at hpr
        exact absurd hpr (by simp)

/-- Every run of the prior evaluation either raises (keyword or mask error)
or returns the pointwise values of the keyword's density. -/
lemma priorArr_cases (prior : String) (darr : List ℝ) :
    (∃ e, priorArr prior darr = Except.error e) ∨
    ∃ pr, priorOf prior = Except.ok pr ∧
      priorArr prior darr = Except.ok (darr.map pr) := by
  by_cases h1 : prior = "exponential"
  · subst h1
    by_cases hm : piecewiseMaskOk (fun d => 0 ≤ d) darr
    · right
      refine ⟨fun d => exp_prior d 1, priorOf_exponential, ?_⟩
      unfold priorArr exp_prior_arr
      rw [if_pos rfl, if_pos hm]
    · left
      refine ⟨npMaskErr, ?_⟩
      unfold priorArr exp_prior_arr
      rw [if_pos rfl, if_neg hm]
  · by_cases h2 : prior = "uniform_density"
    · subst h2
      by_cases hm : piecewiseMaskOk (fun d => 0 ≤ d ∧ d ≤ 30) darr
      · right
        refine ⟨fun d => uniform_density_prior d 30, ?_, ?_⟩
        · unfold priorOf
          rw [if_neg (by decide), if_pos rfl]
        · unfold priorArr uniform_density_prior_arr
          rw [if_neg (by decide), if_pos rfl, if_pos hm]
      · left
        refine ⟨npMaskErr, ?_⟩
        unfold priorArr uniform_density_prior_arr
        rw [if_neg (by decide), if_pos rfl, if_neg hm]
    · by_cases h3 : prior = "uniform_distance"
      · subst h3
        exact Or.inr ⟨fun d => uniform_distance_prior d 30,
          priorOf_uniform_distance, priorArr_uniform_distance darr⟩
      · left
        refine ⟨"Prior keyword does not exist", ?_⟩
        unfold priorArr
        rw [if_neg h1, if_neg h2, if_neg h3]

lemma npLinspace_nonneg (a b : ℝ) (n : ℕ) (ha : 0 ≤ a) (hab : a ≤ b) :
    ∀ x ∈ npLinspace a b n, 0 ≤ x := by
  intro x hx
  unfold npLinspace at hx
  rcases List.mem_map.mp hx with ⟨i, hi, rfl⟩
  have hin : i < n := List.mem_range.mp hi
  have hc1 : (0 : ℝ) ≤ i := Nat.cast_nonneg i
  have hc2 : (0 : ℝ) ≤ b - a := by linarith
  have hc3 : (0 : ℝ) ≤ (n : ℝ) - 1 := by
    have : (1 : ℝ) ≤ (n : ℝ) := by
      have : 1 ≤ n := by omega
      exact_mod_cast this
    linarith
  have := div_nonneg (mul_nonneg hc1 hc2) hc3
  linarith

lemma gridSafe_exponential (a b : ℝ) (n : ℕ) (ha : 0 ≤ a) (hab : a ≤ b) :
    gridSafe "exponential" (npLinspace a b n) := by
  unfold gridSafe
  rw [if_pos rfl]
  exact Or.inl (npLinspace_nonneg a b n ha hab)

lemma gridSafe_uniform_distance (darr : List ℝ) :
    gridSafe "uniform_distance" darr := by
  unfold gridSafe
  rw [if_neg (by decide), if_neg (by decide)]
  trivial

lemma priorArr_exponential_default :
    priorArr "exponential" (npLinspace 0 30 10000)
      = Except.ok ((npLinspace 0 30 10000).map fun d => exp_prior d 1) :=
  priorArr_eq_map "exponential" _ priorOf_exponential _
    (gridSafe_exponential 0 30 10000 le_rfl (by norm_num))

lemma meandist_scalar_eq (pi sigma_pi min_dist max_dist : ℝ) (resolution : ℕ)
    (prior : String) (pr : ℝ → ℝ)
    (hap : priorArr prior (npLinspace min_dist max_dist resolution)
      = Except.ok ((npLinspace min_dist max_dist resolution).map pr)) :
    meandist_scalar pi sigma_pi min_dist max_dist resolution prior
      = Except.ok (npAverage (npLinspace min_dist max_dist resolution)
          ((npLinspace min_dist max_dist resolution).map
            (pdfval pr (npLinspace min_dist max_dist resolution) (pi, sigma_pi)))) := by
  unfold meandist_scalar
  rw [distpdf_scalar_eq _ _ _ _ _ _ _ hap]
  rfl

lemma modedist_scalar_eq (pi sigma_pi min_dist max_dist : ℝ) (resolution : ℕ)
    (prior : String) (pr : ℝ → ℝ)
    (hap : priorArr prior (npLinspace min_dist max_dist resolution)
      = Except.ok ((npLinspace min_dist max_dist resolution).map pr)) :
    modedist_scalar pi sigma_pi min_dist max_dist resolution prior
      = Except.ok ((npLinspace min_dist max_dist resolution).getD
          (npArgmax ((npLinspace min_dist max_dist resolution).map
            (pdfval pr (npLinspace min_dist max_dist resolution) (pi, sigma_pi)))) 0) := by
  unfold modedist_scalar
  rw [distpdf_scalar_eq _ _ _ _ _ _ _ hap]
  rfl

lemma diststd_scalar_isOk (pi sigma_pi min_dist max_dist : ℝ) (resolution : ℕ)
    (prior : String) : (diststd_scalar pi sigma_pi min_dist max_dist resolution prior).isOk = true := by
  unfold diststd_scalar
  rw [distpdf_scalar_eq _ _ _ _ _ _ _ priorArr_exponential_default,
    meandist_scalar_eq _ _ _ _ _ _ _ priorArr_exponential_default]
  rfl

lemma diststd_vec_isOk (pv sv : List ℝ) (min_dist max_dist : ℝ) (resolution : ℕ)
    (prior : String) : (diststd_vec pv sv min_dist max_dist resolution prior).isOk = true := by
  unfold diststd_vec
  rw [distpdf_vec_eq _ _ _ _ _ _ _ priorArr_exponential_default,
    meandist_vec_eq _ _ _ _ _ _ _ priorArr_exponential_default]
  rfl

/-- Over the two-point grid [1, 30] with the exponential prior, the
unnormalized posterior of the source (pi, sigma_pi) = (1, 1) is positive
(used to discharge the nondegeneracy hypotheses of witnesses). -/
lemma witness_srcsum_pos :
    0 < srcsum (fun d => exp_prior d 1) (npLinspace 1 30 2) (1, 1) := by
  unfold srcsum
  rw [npLinspace_two]
  simp only [List.map_cons, List.map_nil, List.sum_cons, List.sum_nil, add_zero]
  have h1 : 0 < srcpost (fun d => exp_prior d 1) (1, 1) 1 := by
    unfold srcpost
    exact mul_pos (exp_prior_pos 1 1 one_pos one_pos)
      (likelihood_pos 1 1 1 one_ne_zero one_ne_zero)
  have h2 : 0 < srcpost (fun d => exp_prior d 1) (1, 1) 30 := by
    unfold srcpost
    exact mul_pos (exp_prior_pos 30 1 (by norm_num) one_pos)
      (likelihood_pos 1 30 1 (by norm_num) one_ne_zero)
  linarith

/-- Claim C9: the grid never contains zero — REFUTED for the default
configuration: np.linspace(0, 30, 10000) starts exactly at 0, so 1/d IS
evaluated at d = 0 (in IEEE arithmetic it gives inf and the likelihood
factor becomes 0; no exception is raised, but the claimed grid property is
false). -/
theorem claim_C9_counterexample :
    (npLinspace 0 30 10000).getD 0 1 = 0 ∧ (0 : ℝ) ∈ npLinspace 0 30 10000 := by
  constructor
  · unfold npLinspace
    rw [getD_map_eq_getElem _ _ (List.range 10000) 0 (by simp)]
    rw [List.getElem_range]
    norm_num
  · unfold npLinspace
    exact List.mem_map.mpr ⟨0, List.mem_range.mpr (by norm_num), by norm_num⟩

/-- Claim C9 (amended): the grid excludes d = 0 only when min_dist > 0;
for every configuration with 0 < min_dist ≤ max_dist, every grid position
(also out-of-range positions, read with default min_dist) is positive and
in particular nonzero, so 1/d is never a division by zero there.  With the
default min_dist = 0 the first grid point is 0 (see the counterexample). -/
theorem claim_C9 (min_dist max_dist : ℝ) (resolution : ℕ) (h0 : 0 < min_dist)
    (hle : min_dist ≤ max_dist) (i : ℕ) :
    (npLinspace min_dist max_dist resolution).getD i min_dist ≠ 0 ∧
    0 < (npLinspace min_dist max_dist resolution).getD i min_dist := by
  have key : 0 < (npLinspace min_dist max_dist resolution).getD i min_dist := by
    rcases lt_or_le i resolution with hi | hi
    · have hi2 : i < (List.range resolution).length := by simpa using hi
      unfold npLinspace
      rw [getD_map_eq_getElem _ _ (List.range resolution) i hi2]
      rw [List.getElem_range]
      have hc1 : (0 : ℝ) ≤ i := Nat.cast_nonneg i
      have hc2 : (0 : ℝ) ≤ max_dist - min_dist := by linarith
      have hc3 : (0 : ℝ) ≤ (resolution : ℝ) - 1 := by
        have : (1 : ℝ) ≤ (resolution : ℝ) := by
          have : 1 ≤ resolution := by omega
          exact_mod_cast this
        linarith
      have := div_nonneg (mul_nonneg hc1 hc2) hc3
      linarith
    · rw [getD_of_length_le _ _ i (by rw [npLinspace_length]; exact hi)]
      exact h0
  exact ⟨ne_of_gt key, key⟩

/-- Witness for (amended) C9 at min_dist = 1, max_dist = 2, resolution = 2,
grid position 0. -/
theorem claim_C9_witness :
    (npLinspace 1 2 2).getD 0 1 ≠ 0 ∧ 0 < (npLinspace 1 2 2).getD 0 1 :=
  claim_C9 1 2 2 (by norm_num) (by norm_num) 0

/-- Claim C7: non-positive sigma_pi fails with an invalid-parameter error —
REFUTED: likelihood(1, 2, -1) returns the same strictly positive numeric
density as likelihood(1, 2, 1), and distpdf accepts sigma_pi = -1 and
returns a successful result; no error of any kind is raised. -/
theorem claim_C7_counterexample :
    likelihood 1 2 (-1) = likelihood 1 2 1 ∧ 0 < likelihood 1 2 (-1) ∧
    (distpdf_scalar 1 (-1) 0 30 10000 "exponential").isOk = true := by
  refine ⟨?_, ?_, ?_⟩
  · unfold likelihood
    norm_num
  · exact likelihood_pos 1 2 (-1) (by norm_num) (by norm_num)
  · rw [distpdf_scalar_eq _ _ _ _ _ _ _ priorArr_exponential_default]
    rfl

/-- Claim C7 (amended): neither likelihood nor the operations built on it
validate sigma_pi.  The likelihood depends on sigma_pi only through its
square, so every negative sigma_pi yields the same numeric density as its
absolute value; and on every configuration whose grid the exponential prior
evaluates without a mask error (in particular the default one, and
unconditionally for diststd, which always recomputes with the defaults) the
pipeline returns a successful numeric result for every real sigma_pi — it
never fails with an invalid-parameter error. -/
theorem claim_C7 (pi d sigma_pi min_dist max_dist : ℝ) (resolution : ℕ)
    (hsafe : gridSafe "exponential" (npLinspace min_dist max_dist resolution)) :
    likelihood pi d (-sigma_pi) = likelihood pi d sigma_pi ∧
    (distpdf_scalar pi sigma_pi min_dist max_dist resolution "exponential").isOk = true ∧
    (meandist_scalar pi sigma_pi min_dist max_dist resolution "exponential").isOk = true ∧
    (diststd_scalar pi sigma_pi min_dist max_dist resolution "exponential").isOk = true ∧
    (modedist_scalar pi sigma_pi min_dist max_dist resolution "exponential").isOk = true := by
  have hap := priorArr_eq_map "exponential" _ priorOf_exponential
    (npLinspace min_dist max_dist resolution) hsafe
  refine ⟨?_, ?_, ?_, ?_, ?_⟩
  · unfold likelihood
    rw [neg_sq]
  · rw [distpdf_scalar_eq _ _ _ _ _ _ _ hap]; rfl
  · rw [meandist_scalar_eq _ _ _ _ _ _ _ hap]; rfl
  · exact diststd_scalar_isOk pi sigma_pi min_dist max_dist resolution "exponential"
  · rw [modedist_scalar_eq _ _ _ _ _ _ _ hap]; rfl

/-- Witness for (amended) C7 at pi = 1, d = 2, sigma_pi = -1 (a negative
uncertainty) and the default configuration. -/
theorem claim_C7_witness :
    likelihood 1 2 (- -1) = likelihood 1 2 (-1) ∧
    (distpdf_scalar 1 (-1) 0 30 10000 "exponential").isOk = true ∧
    (meandist_scalar 1 (-1) 0 30 10000 "exponential").isOk = true ∧
    (diststd_scalar 1 (-1) 0 30 10000 "exponential").isOk = true ∧
    (modedist_scalar 1 (-1) 0 30 10000 "exponential").isOk = true :=
  claim_C7 1 2 (-1) 0 30 10000
    (gridSafe_exponential 0 30 10000 le_rfl (by norm_num))

/-- Claim C6: a zero-sum unnormalized posterior is surfaced as a reportable
condition — REFUTED: for pi = 1, sigma_pi = 1 on the grid [31, 40] (all
probability mass of the uniform-distance prior lies below 31) the
unnormalized posterior is identically zero, yet distpdf returns a
successful result whose pdf is the junk vector [0, 0] (all-NaN in IEEE
arithmetic), and meandist silently returns the junk value 0; no diagnostic
or error is produced. -/
theorem claim_C6_counterexample :
    (distpdf_scalar 1 1 31 40 2 "uniform_distance").isOk = true ∧
    (getOkD (distpdf_scalar 1 1 31 40 2 "uniform_distance") ([], [])).2 = [0, 0] ∧
    meandist_scalar 1 1 31 40 2 "uniform_distance" = Except.ok 0 := by
  have hud31 : uniform_distance_prior 31 30 = 0 := by
    unfold uniform_distance_prior
    rw [if_neg (by norm_num), if_neg (by norm_num)]
  have hud40 : uniform_distance_prior 40 30 = 0 := by
    unfold uniform_distance_prior
    rw [if_neg (by norm_num), if_neg (by norm_num)]
  have hpdf : (npLinspace 31 40 2).map
      (pdfval (fun d => uniform_distance_prior d 30) (npLinspace 31 40 2) (1, 1))
      = [0, 0] := by
    rw [npLinspace_two]
    simp only [List.map_cons, List.map_nil]
    unfold pdfval srcpost
    dsimp only
    rw [hud31, hud40]
    norm_num
  refine ⟨?_, ?_, ?_⟩
  · rw [distpdf_scalar_eq _ _ _ _ _ _ _ (priorArr_uniform_distance _)]; rfl
  · rw [distpdf_scalar_eq _ _ _ _ _ _ _ (priorArr_uniform_distance _)]
    simp only [getOkD]
    exact hpdf
  · rw [meandist_scalar_eq _ _ _ _ _ _ _ (priorArr_uniform_distance _)]
    rw [hpdf, npLinspace_two]
    unfold npAverage
    norm_num

/-- Claim C6 (amended): distpdf and the derived statistics perform no
degeneracy check at all: for every recognized prior keyword and every
configuration whose grid the selected prior evaluates without a mask error
— in particular in the zero-sum scenario of the counterexample, whose
uniform-distance prior never raises — every operation returns a successful
result even when a source's unnormalized posterior sums to zero: the
degeneracy is never surfaced as an error, tag or diagnostic.  (On mask-
unsafe grids uniform_density/exponential crash with np.piecewise's
broadcasting ValueError, which is an unrelated crash, not a degeneracy
diagnostic.) -/
theorem claim_C6 (pi sigma_pi min_dist max_dist : ℝ) (resolution : ℕ)
    (prior : String) (pr : ℝ → ℝ) (hpr : priorOf prior = Except.ok pr)
    (hsafe : gridSafe prior (npLinspace min_dist max_dist resolution))
    (pv sv : List ℝ) :
    (distpdf_scalar pi sigma_pi min_dist max_dist resolution prior).isOk = true ∧
    (meandist_scalar pi sigma_pi min_dist max_dist resolution prior).isOk = true ∧
    (diststd_scalar pi sigma_pi min_dist max_dist resolution prior).isOk = true ∧
    (modedist_scalar pi sigma_pi min_dist max_dist resolution prior).isOk = true ∧
    (distpdf_vec pv sv min_dist max_dist resolution prior).isOk = true ∧
    (meandist_vec pv sv min_dist max_dist resolution prior).isOk = true ∧
    (diststd_vec pv sv min_dist max_dist resolution prior).isOk = true ∧
    (modedist_vec pv sv min_dist max_dist resolution prior).isOk = true := by
  have hap := priorArr_eq_map prior pr hpr
    (npLinspace min_dist max_dist resolution) hsafe
  refine ⟨?_, ?_, ?_, ?_, ?_, ?_, ?_, ?_⟩
  · rw [distpdf_scalar_eq _ _ _ _ _ _ _ hap]; rfl
  · rw [meandist_scalar_eq _ _ _ _ _ _ _ hap]; rfl
  · exact diststd_scalar_isOk pi sigma_pi min_dist max_dist resolution prior
  · rw [modedist_scalar_eq _ _ _ _ _ _ _ hap]; rfl
  · rw [distpdf_vec_eq _ _ _ _ _ _ _ hap]; rfl
  · rw [meandist_vec_eq _ _ _ _ _ _ _ hap]; rfl
  · exact diststd_vec_isOk pv sv min_dist max_dist resolution prior
  · unfold modedist_vec
    rw [distpdf_vec_eq _ _ _ _ _ _ _ hap]; rfl

/-- Witness for (amended) C6, instantiated exactly at the degenerate
zero-sum input of the counterexample. -/
theorem claim_C6_witness :
    (distpdf_scalar 1 1 31 40 2 "uniform_distance").isOk = true ∧
    (meandist_scalar 1 1 31 40 2 "uniform_distance").isOk = true ∧
    (diststd_scalar 1 1 31 40 2 "uniform_distance").isOk = true ∧
    (modedist_scalar 1 1 31 40 2 "uniform_distance").isOk = true ∧
    (distpdf_vec [1] [1] 31 40 2 "uniform_distance").isOk = true ∧
    (meandist_vec [1] [1] 31 40 2 "uniform_distance").isOk = true ∧
    (diststd_vec [1] [1] 31 40 2 "uniform_distance").isOk = true ∧
    (modedist_vec [1] [1] 31 40 2 "uniform_distance").isOk = true :=
  claim_C6 1 1 31 40 2 "uniform_distance" (fun d => uniform_distance_prior d 30)
    priorOf_uniform_distance (gridSafe_uniform_distance _) [1] [1]

/-- Claim C1: the pdf returned by distpdf is non-negative and sums to 1 for
EVERY grid configuration — REFUTED: with the uniform-distance prior and the
grid [31, 40] (entirely above rlim = 30) the unnormalized posterior is the
zero vector, and distpdf returns the pdf [0, 0] (all-NaN in IEEE
arithmetic), whose sum is 0, not 1. -/
theorem claim_C1_counterexample :
    distpdf_scalar 1 1 31 40 2 "uniform_distance" = Except.ok ([31, 40], [0, 0]) ∧
    ([0, 0] : List ℝ).sum ≠ 1 := by
  have hud31 : uniform_distance_prior 31 30 = 0 := by
    unfold uniform_distance_prior
    rw [if_neg (by norm_num), if_neg (by norm_num)]
  have hud40 : uniform_distance_prior 40 30 = 0 := by
    unfold uniform_distance_prior
    rw [if_neg (by norm_num), if_neg (by norm_num)]
  constructor
  · rw [distpdf_scalar_eq _ _ _ _ _ _ _ (priorArr_uniform_distance _), npLinspace_two]
    simp only [List.map_cons, List.map_nil]
    unfold pdfval srcpost
    dsimp only
    rw [hud31, hud40]
    norm_num
  · norm_num

lemma col_distpdf_vec (pv sv : List ℝ) (min_dist max_dist : ℝ) (resolution : ℕ)
    (prior : String) (pr : ℝ → ℝ)
    (hap : priorArr prior (npLinspace min_dist max_dist resolution)
      = Except.ok ((npLinspace min_dist max_dist resolution).map pr))
    (j : ℕ) (hj : j < (pv.zip sv).length) :
    col (getOkD (distpdf_vec pv sv min_dist max_dist resolution prior) ([], [])).2 j
      = (npLinspace min_dist max_dist resolution).map
          (pdfval pr (npLinspace min_dist max_dist resolution)
            (pv.getD j 0, sv.getD j 0)) := by
  have hjp : j < pv.length := by
    rw [List.length_zip] at hj
    exact lt_of_lt_of_le hj (min_le_left _ _)
  have hjs : j < sv.length := by
    rw [List.length_zip] at hj
    exact lt_of_lt_of_le hj (min_le_right _ _)
  have hzel : (pv.zip sv)[j] = (pv.getD j 0, sv.getD j 0) := by
    rw [List.getElem_zip, getD_eq_getElem' _ pv j hjp, getD_eq_getElem' _ sv j hjs]
  rw [distpdf_vec_eq _ _ _ _ _ _ _ hap]
  simp only [getOkD]
  rw [col_of_rect _ (pv.zip sv)
    (fun d ps => pdfval pr (npLinspace min_dist max_dist resolution) ps d) j hj]
  rw [hzel]

/-- Claim C1 (amended): for every parallax, sigma_pi, recognized prior
keyword and grid configuration WHOSE UNNORMALIZED POSTERIOR HAS NONZERO SUM
for the source under consideration, the pdf returned by distpdf consists of
non-negative values and sums to exactly 1 along the distance axis — in the
scalar branch and, per source, in the multi-source branch alike.  (The
nonzero-sum proviso is forced by the counterexample: a grid excluding all
prior mass gives a zero-sum posterior and a 0/0 pdf.  The mask-safety
proviso is forced by np.piecewise: on grids with points outside the
array-valued piece of uniform_density/exponential the prior itself raises
ValueError and no pdf is returned at all.) -/
theorem claim_C1 (pi sigma_pi min_dist max_dist : ℝ) (resolution : ℕ)
    (prior : String) (pr : ℝ → ℝ) (hpr : priorOf prior = Except.ok pr)
    (hsafe : gridSafe prior (npLinspace min_dist max_dist resolution))
    (hS : srcsum pr (npLinspace min_dist max_dist resolution) (pi, sigma_pi) ≠ 0)
    (pv sv : List ℝ) (j : ℕ) (hj : j < (pv.zip sv).length)
    (hSj : srcsum pr (npLinspace min_dist max_dist resolution)
      (pv.getD j 0, sv.getD j 0) ≠ 0) :
    (∀ x ∈ (getOkD (distpdf_scalar pi sigma_pi min_dist max_dist resolution prior)
      ([], [])).2, 0 ≤ x) ∧
    ((getOkD (distpdf_scalar pi sigma_pi min_dist max_dist resolution prior)
      ([], [])).2).sum = 1 ∧
    (∀ x ∈ col (getOkD (distpdf_vec pv sv min_dist max_dist resolution prior)
      ([], [])).2 j, 0 ≤ x) ∧
    (col (getOkD (distpdf_vec pv sv min_dist max_dist resolution prior)
      ([], [])).2 j).sum = 1 := by
  have hap := priorArr_eq_map prior pr hpr
    (npLinspace min_dist max_dist resolution) hsafe
  have hcol := col_distpdf_vec pv sv min_dist max_dist resolution prior pr hap j hj
  refine ⟨?_, ?_, ?_, ?_⟩
  · rw [distpdf_scalar_eq _ _ _ _ _ _ _ hap]
    simp only [getOkD]
    intro x hx
    rcases List.mem_map.mp hx with ⟨d, _, rfl⟩
    exact pdfval_nonneg prior pr hpr _ _ d
  · rw [distpdf_scalar_eq _ _ _ _ _ _ _ hap]
    simp only [getOkD]
    exact pdfsum_eq_one pr (npLinspace min_dist max_dist resolution) (pi, sigma_pi) hS
  · rw [hcol]
    intro x hx
    rcases List.mem_map.mp hx with ⟨d, _, rfl⟩
    exact pdfval_nonneg prior pr hpr _ _ d
  · rw [hcol]
    exact pdfsum_eq_one pr (npLinspace min_dist max_dist resolution)
      (pv.getD j 0, sv.getD j 0) hSj

/-- Witness for (amended) C1: the exponential prior on the two-point grid
[1, 30] with (pi, sigma_pi) = (1, 1), scalar and one-source branches: the
returned pdfs sum to 1. -/
theorem claim_C1_witness :
    ((getOkD (distpdf_scalar 1 1 1 30 2 "exponential") ([], [])).2).sum = 1 ∧
    (col (getOkD (distpdf_vec [1] [1] 1 30 2 "exponential") ([], [])).2 0).sum = 1 := by
  have h := claim_C1 1 1 1 30 2 "exponential" (fun d => exp_prior d 1)
    priorOf_exponential (gridSafe_exponential 1 30 2 (by norm_num) (by norm_num))
    (ne_of_gt witness_srcsum_pos) [1] [1] 0 (by simp)
    (ne_of_gt witness_srcsum_pos)
  exact ⟨h.2.1, h.2.2.2⟩

/-! ### Scalar-vs-singleton-sequence agreement, operation by operation -/

lemma colSums_one (m : List (List ℝ)) : colSums m 1 = [colSum m 0] := by
  unfold colSums
  have h1 : List.range 1 = [0] := rfl
  rw [h1]
  rfl

lemma col_map_singleton (G : List ℝ) (f : ℝ → ℝ) :
    col (G.map fun d => [f d]) 0 = G.map f := by
  unfold col
  rw [List.map_map]
  rfl

lemma colSum_map_singleton (G : List ℝ) (f : ℝ → ℝ) :
    colSum (G.map fun d => [f d]) 0 = (G.map f).sum := by
  unfold colSum
  rw [col_map_singleton]

lemma distpdf_singleton (pi sigma_pi min_dist max_dist : ℝ) (resolution : ℕ)
    (prior : String) :
    distpdf_vec [pi] [sigma_pi] min_dist max_dist resolution prior
      = (distpdf_scalar pi sigma_pi min_dist max_dist resolution prior).map
          (fun dp => (dp.1, dp.2.map fun x => [x])) := by
  rcases priorArr_cases prior (npLinspace min_dist max_dist resolution) with
    ⟨e, he⟩ | ⟨pr, hpr, hap⟩
  · unfold distpdf_vec posterior_vec distpdf_scalar posterior_scalar
    dsimp only
    rw [he]
    rfl
  · rw [distpdf_vec_eq _ _ _ _ _ _ _ hap, distpdf_scalar_eq _ _ _ _ _ _ _ hap]
    simp only [Except.map, List.map_map, List.zip_cons_cons, List.zip_nil_right,
      List.map_cons, List.map_nil, Function.comp]
    rfl

lemma meandist_singleton (pi sigma_pi min_dist max_dist : ℝ) (resolution : ℕ)
    (prior : String) :
    meandist_vec [pi] [sigma_pi] min_dist max_dist resolution prior
      = (meandist_scalar pi sigma_pi min_dist max_dist resolution prior).map
          (fun m => [m]) := by
  rcases priorArr_cases prior (npLinspace min_dist max_dist resolution) with
    ⟨e, he⟩ | ⟨pr, hpr, hap⟩
  · unfold meandist_vec distpdf_vec posterior_vec meandist_scalar distpdf_scalar
      posterior_scalar
    dsimp only
    rw [he]
    rfl
  · rw [meandist_vec_eq _ _ _ _ _ _ _ hap, meandist_scalar_eq _ _ _ _ _ _ _ hap]
    simp only [Except.map, List.zip_cons_cons, List.zip_nil_right, List.map_cons,
      List.map_nil, Except.ok.injEq, List.cons.injEq, and_true]
    unfold npAverage
    rw [zipWith_map_right_same,
      sum_map_div (npLinspace min_dist max_dist resolution)
        (fun d => pdfval pr (npLinspace min_dist max_dist resolution) (pi, sigma_pi) d * d)
        (pdfsum pr (npLinspace min_dist max_dist resolution) (pi, sigma_pi))]
    congr 1
    congr 1
    apply List.map_congr_left
    intro d _
    ring

lemma modedist_singleton (pi sigma_pi min_dist max_dist : ℝ) (resolution : ℕ)
    (prior : String) :
    modedist_vec [pi] [sigma_pi] min_dist max_dist resolution prior
      = (modedist_scalar pi sigma_pi min_dist max_dist resolution prior).map
          (fun x => [x]) := by
  rcases priorArr_cases prior (npLinspace min_dist max_dist resolution) with
    ⟨e, he⟩ | ⟨pr, hpr, hap⟩
  · unfold modedist_vec distpdf_vec posterior_vec modedist_scalar distpdf_scalar
      posterior_scalar
    dsimp only
    rw [he]
    rfl
  · unfold modedist_vec
    rw [distpdf_vec_eq _ _ _ _ _ _ _ hap, modedist_scalar_eq _ _ _ _ _ _ _ hap]
    have h1 : List.range 1 = [0] := rfl
    simp only [Except.map, List.zip_cons_cons, List.zip_nil_right, List.length_cons,
      List.length_nil, Nat.zero_add, h1, List.map_cons, List.map_nil]
    rw [col_map_singleton (npLinspace min_dist max_dist resolution)
      (fun d => pdfval pr (npLinspace min_dist max_dist resolution) (pi, sigma_pi) d)]

lemma diststd_singleton (pi sigma_pi min_dist max_dist : ℝ) (resolution : ℕ)
    (prior : String) :
    diststd_vec [pi] [sigma_pi] min_dist max_dist resolution prior
      = (diststd_scalar pi sigma_pi min_dist max_dist resolution prior).map
          (fun x => [x]) := by
  unfold diststd_vec diststd_scalar
  rw [distpdf_vec_eq [pi] [sigma_pi] 0 30 10000 "exponential" _
      priorArr_exponential_default,
    meandist_vec_eq [pi] [sigma_pi] 0 30 10000 "exponential" _
      priorArr_exponential_default,
    distpdf_scalar_eq pi sigma_pi 0 30 10000 "exponential" _
      priorArr_exponential_default,
    meandist_scalar_eq pi sigma_pi 0 30 10000 "exponential" _
      priorArr_exponential_default]
  simp only [Except.bind, Except.map, List.zip_cons_cons, List.zip_nil_right,
    List.map_cons, List.map_nil, List.length_cons, List.length_nil, Nat.zero_add]
  simp only [colSums_one, colSum_map_singleton]
  simp only [List.zip_cons_cons, List.zip_nil_right]
  rw [zipWith_map_right_same]
  simp only [List.zipWith_cons_cons, List.zipWith_nil_right, List.zipWith_nil_left]
  simp only [colSums_one, colSum_map_singleton]
  simp only [List.map_cons, List.map_nil, Except.ok.injEq, List.cons.injEq, and_true]
  apply congrArg
  rcases eq_or_ne (srcsum (fun d => exp_prior d 1) (npLinspace 0 30 10000)
    (pi, sigma_pi)) 0 with h | h
  · have hPf : pdfval (fun d => exp_prior d 1) (npLinspace 0 30 10000) (pi, sigma_pi)
        = fun _ => (0 : ℝ) :=
      funext fun d => by unfold pdfval; rw [h, div_zero]
    have hz : ((npLinspace 0 30 10000).map fun _ => (0 : ℝ)).sum = 0 := by
      simp
    simp only [npAverage, hPf, zero_mul, mul_zero, zipWith_map_right_same,
      zipWith_map_same, hz, zero_div, div_zero]
  · have hT : ((npLinspace 0 30 10000).map fun d =>
        pdfval (fun d => exp_prior d 1) (npLinspace 0 30 10000) (pi, sigma_pi) d).sum
        = 1 :=
      pdfsum_eq_one (fun d => exp_prior d 1) (npLinspace 0 30 10000) (pi, sigma_pi) h
    have hT2 : (List.map (pdfval (fun d => exp_prior d 1) (npLinspace 0 30 10000)
        (pi, sigma_pi)) (npLinspace 0 30 10000)).sum = 1 := hT
    have hT3 : pdfsum (fun d => exp_prior d 1) (npLinspace 0 30 10000) (pi, sigma_pi)
        = 1 :=
      pdfsum_eq_one (fun d => exp_prior d 1) (npLinspace 0 30 10000) (pi, sigma_pi) h
    simp only [npAverage, zipWith_map_right_same, zipWith_map_same, hT, hT2, hT3,
      div_one]
    have hμm : ((npLinspace 0 30 10000).map fun d =>
          pdfval (fun d => exp_prior d 1) (npLinspace 0 30 10000) (pi, sigma_pi) d * d).sum
        = ((npLinspace 0 30 10000).map fun d =>
          d * pdfval (fun d => exp_prior d 1) (npLinspace 0 30 10000) (pi, sigma_pi) d).sum := by
      apply congrArg
      apply List.map_congr_left
      intro d _
      ring
    rw [hμm]
    apply congrArg
    apply List.map_congr_left
    intro d _
    ring

/-- Claim C4: scalar and length-1-sequence inputs follow different code
paths but compute equal results (up to the wrapping shape) for distpdf,
meandist, diststd and modedist, for every (pi, sigma_pi), every grid
configuration and every prior keyword (also the erroring ones). -/
theorem claim_C4 (pi sigma_pi min_dist max_dist : ℝ) (resolution : ℕ)
    (prior : String) :
    distpdf_vec [pi] [sigma_pi] min_dist max_dist resolution prior
      = (distpdf_scalar pi sigma_pi min_dist max_dist resolution prior).map
          (fun dp => (dp.1, dp.2.map fun x => [x])) ∧
    meandist_vec [pi] [sigma_pi] min_dist max_dist resolution prior
      = (meandist_scalar pi sigma_pi min_dist max_dist resolution prior).map
          (fun m => [m]) ∧
    diststd_vec [pi] [sigma_pi] min_dist max_dist resolution prior
      = (diststd_scalar pi sigma_pi min_dist max_dist resolution prior).map
          (fun x => [x]) ∧
    modedist_vec [pi] [sigma_pi] min_dist max_dist resolution prior
      = (modedist_scalar pi sigma_pi min_dist max_dist resolution prior).map
          (fun x => [x]) :=
  ⟨distpdf_singleton pi sigma_pi min_dist max_dist resolution prior,
   meandist_singleton pi sigma_pi min_dist max_dist resolution prior,
   diststd_singleton pi sigma_pi min_dist max_dist resolution prior,
   modedist_singleton pi sigma_pi min_dist max_dist resolution prior⟩

/-- Claim C10: in the multi-source branch of meandist, the extra division by
the per-source pdf column sums is a no-op whenever distpdf's normalization
is genuine (nonzero unnormalized posterior sum, so the column sums to 1 in
exact arithmetic): the vector mean of source j equals the plain
pdf-weighted sum Σ_i grid[i]·pdf[i,j], which is exactly the quantity the
scalar branch computes with np.average for the same source. -/
theorem claim_C10 (pv sv : List ℝ) (min_dist max_dist : ℝ) (resolution : ℕ)
    (prior : String) (pr : ℝ → ℝ) (hpr : priorOf prior = Except.ok pr)
    (j : ℕ) (hj : j < (pv.zip sv).length)
    (hSj : srcsum pr (npLinspace min_dist max_dist resolution)
      (pv.getD j 0, sv.getD j 0) ≠ 0) :
    (getOkD (meandist_vec pv sv min_dist max_dist resolution prior) []).getD j 0
      = (List.zipWith (· * ·) (npLinspace min_dist max_dist resolution)
          (col (getOkD (distpdf_vec pv sv min_dist max_dist resolution prior)
            ([], [])).2 j)).sum ∧
    (getOkD (meandist_vec pv sv min_dist max_dist resolution prior) []).getD j 0
      = getOkD (meandist_scalar (pv.getD j 0) (sv.getD j 0) min_dist max_dist
          resolution prior) 0 := by
  have hjp : j < pv.length := by
    rw [List.length_zip] at hj
    exact lt_of_lt_of_le hj (min_le_left _ _)
  have hjs : j < sv.length := by
    rw [List.length_zip] at hj
    exact lt_of_lt_of_le hj (min_le_right _ _)
  have hzel : (pv.zip sv)[j] = (pv.getD j 0, sv.getD j 0) := by
    rw [List.getElem_zip, getD_eq_getElem' _ pv j hjp, getD_eq_getElem' _ sv j hjs]
  have hT3 : pdfsum pr (npLinspace min_dist max_dist resolution)
      (pv.getD j 0, sv.getD j 0) = 1 :=
    pdfsum_eq_one pr (npLinspace min_dist max_dist resolution)
      (pv.getD j 0, sv.getD j 0) hSj
  rcases priorArr_cases prior (npLinspace min_dist max_dist resolution) with
    ⟨e, he⟩ | ⟨pr2, hpr2, hap⟩
  · -- np.piecewise (or the keyword dispatch) raises on this configuration:
    -- every observed quantity in the statement collapses to its default 0
    have hm : meandist_vec pv sv min_dist max_dist resolution prior
        = Except.error e := by
      unfold meandist_vec distpdf_vec posterior_vec
      dsimp only
      rw [he]
      rfl
    have hd : distpdf_vec pv sv min_dist max_dist resolution prior
        = Except.error e := by
      unfold distpdf_vec posterior_vec
      dsimp only
      rw [he]
      rfl
    have hms : meandist_scalar (pv.getD j 0) (sv.getD j 0) min_dist max_dist
        resolution prior = Except.error e := by
      unfold meandist_scalar distpdf_scalar posterior_scalar
      dsimp only
      rw [he]
      rfl
    rw [hm, hd, hms]
    simp [getOkD, col, getD_of_length_le]
  · have hpr3 : pr2 = pr := Except.ok.inj (hpr2.symm.trans hpr)
    rw [hpr3] at hap
    have hmv : (getOkD (meandist_vec pv sv min_dist max_dist resolution prior) []).getD j 0
        = ((npLinspace min_dist max_dist resolution).map fun d =>
            pdfval pr (npLinspace min_dist max_dist resolution)
              (pv.getD j 0, sv.getD j 0) d * d).sum := by
      rw [meandist_vec_eq _ _ _ _ _ _ _ hap]
      simp only [getOkD]
      rw [getD_map_eq_getElem _ _ (pv.zip sv) j hj, hzel]
      simp only [hT3, div_one]
    have hcol := col_distpdf_vec pv sv min_dist max_dist resolution prior pr hap j hj
    constructor
    · rw [hmv, hcol, zipWith_map_right_same]
      apply congrArg
      apply List.map_congr_left
      intro d _
      ring
    · rw [hmv, meandist_scalar_eq _ _ _ _ _ _ _ hap]
      simp only [getOkD]
      unfold npAverage
      rw [zipWith_map_right_same]
      have hT2 : (List.map (pdfval pr (npLinspace min_dist max_dist resolution)
          (pv.getD j 0, sv.getD j 0)) (npLinspace min_dist max_dist resolution)).sum
          = 1 := hT3
      rw [hT2, div_one]
      apply congrArg
      apply List.map_congr_left
      intro d _
      ring

/-- Witness for C10: exponential prior, grid [1, 30], single source
(pi, sigma_pi) = (1, 1), j = 0. -/
theorem claim_C10_witness :
    (getOkD (meandist_vec [1] [1] 1 30 2 "exponential") []).getD 0 0
      = (List.zipWith (· * ·) (npLinspace 1 30 2)
          (col (getOkD (distpdf_vec [1] [1] 1 30 2 "exponential") ([], [])).2 0)).sum ∧
    (getOkD (meandist_vec [1] [1] 1 30 2 "exponential") []).getD 0 0
      = getOkD (meandist_scalar (([1] : List ℝ).getD 0 0) (([1] : List ℝ).getD 0 0)
          1 30 2 "exponential") 0 :=
  claim_C10 [1] [1] 1 30 2 "exponential" (fun d => exp_prior d 1)
    priorOf_exponential 0 (by simp) (ne_of_gt witness_srcsum_pos)

end Abj2016
